import Mathlib

/-!
Verification of the multi-session PTY manager of
server/session_manager.py together with its HTTP facade in server/app.py.

The embedding is shallow and sequential: every source function becomes a
pure Lean function over an explicit registry / session state, and every
OS-level side effect (mkdir, openpty, fork, kill, close, waitpid, writes)
is recorded in an action trace.  Inputs the source obtains from the
environment (uuid4 ids, clock values, strftime stamps, spawn outcomes,
the running event loop, the sha256 user hash) are passed in explicitly as
parameters, so the Lean functions are total and executable.

Critical sections of the source (the registry lock) become atomic Lean
functions; claims about concurrent interleavings are therefore read as
claims about the atomic operations the lock delimits.
-/

namespace Workshop

/-- A raw output chunk: bytes as naturals (the source reads `bytes` from
the PTY master descriptor in blocks of up to 4096). -/
abbrev Chunk := List Nat

/-- An environment mapping, modelling a Python `dict[str, str]` as an
association list in insertion order (Python dicts preserve it). -/
abbrev Env := List (String × String)

/-- Configuration constants.  The source reads them from environment
variables at import time, with the defaults used here:
`MAX_SESSIONS = 50`, `MAX_SESSIONS_PER_USER = 10`,
`OUTPUT_BUFFER_MAXLEN = 200000`, `IDLE_TIMEOUT_MINUTES = 0`. -/
structure Config where
  maxSessions : Nat := 50
  maxSessionsPerUser : Nat := 10
  outputBufferMaxlen : Nat := 200000
  idleTimeoutMinutes : Nat := 0
deriving DecidableEq

/-- Source: `WORKSPACES_DIR` default (`Path(os.getenv("WORKSPACES_DIR", "./workspaces"))`). -/
def WORKSPACES_DIR : String := "./workspaces"

/-- Source: `TRANSCRIPTS_DIR` default (`Path(os.getenv("TRANSCRIPTS_DIR", "./transcripts"))`). -/
def TRANSCRIPTS_DIR : String := "./transcripts"

/-- One subscriber queue, mirroring `asyncio.Queue(maxsize=1000)` created
by `ClaudeSession.subscribe`.  `items` are the queued elements in FIFO
order; `none` is the end-of-session sentinel the reader pushes on exit.
`qid` is the identity of the queue object (Python compares queue objects
by identity in `unsubscribe`). -/
structure SubQueue where
  qid : Nat
  maxsize : Nat
  items : List (Option Chunk)
deriving DecidableEq

/-- Source: `q.put_nowait(x)` as performed by the reader through
`loop.call_soon_threadsafe`: if the queue is full the `QueueFull` raise is
swallowed and the element is dropped for that subscriber only. -/
def qPut (q : SubQueue) (x : Option Chunk) : SubQueue :=
  if q.items.length < q.maxsize then { q with items := q.items ++ [x] } else q

/-- The `ClaudeSession` dataclass.  `transcript` models the optional
transcript file as its accumulated content (`none` when the file could
not be opened); `hasLoop` models whether `_loop` holds an event loop
(broadcast happens only through `loop.call_soon_threadsafe`).
File descriptors and pids are `Int` because the placeholder uses `-1`. -/
structure ClaudeSession where
  session_id : String
  user_email : String
  session_name : String
  master_fd : Int
  pid : Int
  workspace_dir : String
  output_buffer : List Chunk := []
  last_activity : Nat := 0
  started_at : Nat := 0
  alive : Bool := true
  subscribers : List SubQueue := []
  hasLoop : Bool := false
  transcript : Option (List Chunk) := none
deriving DecidableEq

/-- The registry `SessionManager._sessions : dict[str, ClaudeSession]`,
modelled as the list of sessions in insertion order (Python dicts iterate
in insertion order).  Keys are the `session_id` fields; the source keys
the dict by uuid4-derived ids, which are fresh, so insertion is append. -/
abbrev Registry := List ClaudeSession

/-- OS-level side effects recorded by the embedding. -/
inductive Action where
  | mkdirWorkspace (path : String)
  | openPty
  | forkChild (childEnv : Env)
  | closeFd (fd : Int)
  | openTranscript (path : String)
  | startReader (sid : String)
  | sigKillPg (pid : Int)
  | sigKill (pid : Int)
  | reapWait (pid : Int)
  | ptyWrite (fd : Int) (data : Chunk)
  | ptyResize (fd : Int) (rows cols : Nat)
  | setsid
  | ioctlSctty (fd : Int)
  | dup2 (src dst : Int)
  | chdir (path : String)
deriving DecidableEq

/-- Source: `sum(1 for s in self._sessions.values() if s.alive)`. -/
def liveCount (reg : Registry) : Nat :=
  reg.countP (fun s => s.alive)

/-- Source: `len([s for s in self._sessions.values() if s.alive and s.user_email == u])`. -/
def userLive (reg : Registry) (u : String) : Nat :=
  reg.countP (fun s => s.alive && s.user_email == u)

/-- The duplicate scan of `create_session`:
`for s in self._sessions.values(): if s.user_email == user_email and
s.session_name == session_name: return s` — first match in insertion
order, with no test of `s.alive`. -/
def findDup (reg : Registry) (u n : String) : Option ClaudeSession :=
  reg.find? (fun s => s.user_email == u && s.session_name == n)

/-- Registry lookup by id (`self._sessions.get(session_id)`). -/
def get_session (reg : Registry) (sid : String) : Option ClaudeSession :=
  reg.find? (fun s => s.session_id == sid)

/-- Replace the entry with the given id (the source mutates the very
object stored in the dict, so the dict entry is updated in place). -/
def replaceById (reg : Registry) (sid : String) (fin : ClaudeSession) : Registry :=
  reg.map (fun t => if t.session_id == sid then fin else t)

/-- Source: `collections.deque(maxlen=m).append c`: append on the right, evicting
from the left once the buffer holds `m` chunks (a `maxlen=0` deque stays
empty). -/
def ringAppend (m : Nat) (buf : List Chunk) (c : Chunk) : List Chunk :=
  (buf ++ [c]).drop (buf.length + 1 - m)

/-- Python dict assignment `e[k] = v`: if the key is present its value is
updated in place (keeping its position), otherwise the pair is appended. -/
def envSet (e : Env) (k v : String) : Env :=
  if e.any (fun kv => kv.1 == k) then
    e.map (fun kv => if kv.1 == k then (k, v) else kv)
  else
    e ++ [(k, v)]

/-- Python dict lookup `e.get(k)`. -/
def envGet (e : Env) (k : String) : Option String :=
  (e.find? (fun kv => kv.1 == k)).map (fun kv => kv.2)

/-- Substring test over character lists, used for the
`"OAUTH" in key.upper()` check. -/
def strHasSub (hay needle : String) : Bool :=
  hay.toList.tails.any (fun t => needle.toList.isPrefixOf t)

/-- The credential filter of `create_session`: a key is stripped exactly
when its uppercasing contains the substring `OAUTH` (uppercasing done
characterwise, as `str.upper` does on these ASCII keys). -/
def oauthKey (k : String) : Bool :=
  strHasSub (String.mk (k.toList.map Char.toUpper)) "OAUTH"

/-- Source: `os.environ.get("HOME", "/tmp/workshop-home")`. -/
def homeDirOf (parent : Env) : String :=
  (envGet parent "HOME").getD "/tmp/workshop-home"

/-- Source: `os.environ.get("PATH", "/usr/bin")`. -/
def pathOf (parent : Env) : String :=
  (envGet parent "PATH").getD "/usr/bin"

/-- The child environment built by `create_session` (source lines
220-235): a copy of the parent environment with `HOME`, `PWD`, `TERM`,
`LANG` and `PATH` assigned, then every key whose uppercasing contains
`OAUTH` deleted, then the caller-supplied extra `env` dict applied. -/
def child_env (parent : Env) (workspace_dir : String) (extra : Option Env) : Env :=
  let home := homeDirOf parent
  let e1 := envSet parent "HOME" home
  let e2 := envSet e1 "PWD" workspace_dir
  let e3 := envSet e2 "TERM" "xterm-256color"
  let e4 := envSet e3 "LANG" "en_US.UTF-8"
  let e5 := envSet e4 "PATH" (home ++ "/.local/bin:" ++ pathOf parent)
  let e6 := e5.filter (fun kv => !(oauthKey kv.1))
  match extra with
  | none => e6
  | some ex => ex.foldl (fun acc kv => envSet acc kv.1 kv.2) e6

/-- Source: `SessionManager._resolve_claude_binary`: first candidate path that is
an executable file, else the bare name `claude` for PATH lookup.
`isExecFile` stands for `os.path.isfile(p) and os.access(p, os.X_OK)`. -/
def resolve_claude_binary (home : String) (isExecFile : String → Bool) : String :=
  let candidates := [home ++ "/.local/bin/claude",
    "/app/python/source_code/node_modules/.bin/claude",
    "./node_modules/.bin/claude"]
  match candidates.find? isExecFile with
  | some p => p
  | none => "claude"

/-- Inputs the spawn path of `create_session` obtains from the OS and
runtime: the fresh uuid-derived id, the clock, the `strftime` stamp,
whether each fallible OS step succeeds, the descriptors and pid a
successful spawn yields, whether an asyncio loop is running, and whether
the transcript file opens. -/
structure SpawnWorld where
  newId : String
  now : Nat
  ts : String
  mkdirOk : Bool := true
  openptyOk : Bool := true
  masterFd : Int := 3
  slaveFd : Int := 4
  forkOk : Bool := true
  childPid : Int := 1234
  hasRunningLoop : Bool := true
  transcriptOk : Bool := true
deriving DecidableEq

/-- Result of `create_session` as seen by its caller.  `capacityError`
and `perUserError` are the two `RuntimeError` raises of the capacity
checks; `raised step` is an uncaught OS exception (`OSError` from mkdir,
`pty.openpty` or `os.fork`) propagating out of the call. -/
inductive CreateResult where
  | ok (s : ClaudeSession)
  | capacityError
  | perUserError
  | raised (step : String)
deriving DecidableEq

/-- Source: `SessionManager.create_session`.  The `with self._lock` critical
section (capacity check, duplicate scan, per-user check, placeholder
insertion) is the part up to and including the placeholder append; the
fallible spawn steps follow outside the lock, exactly as in the source.
Note that the source wraps none of the spawn steps in try/except: a
failure propagates and no code removes the placeholder.
`sha256hex12` applied to the owner email stands for
`hashlib.sha256(user_email.lower().encode()).hexdigest()[:12]`
(its value never matters to a claim, so the pipeline is passed in). -/
def create_session (cfg : Config) (w : SpawnWorld) (reg : Registry)
    (user_email session_name : String) (extraEnv : Option Env)
    (workspace_override : Option String) (parentEnv : Env)
    (sha256hex12 : String → String) :
    Registry × List Action × CreateResult :=
  let workspace_dir :=
    match workspace_override with
    | some wo => wo
    | none =>
        WORKSPACES_DIR ++ "/" ++ sha256hex12 user_email ++ "/" ++ session_name
  -- ---- critical section (with self._lock) ----
  if cfg.maxSessions ≤ liveCount reg then
    (reg, [], CreateResult.capacityError)
  else
    match findDup reg user_email session_name with
    | some s => (reg, [], CreateResult.ok s)
    | none =>
      if cfg.maxSessionsPerUser ≤ userLive reg user_email then
        (reg, [], CreateResult.perUserError)
      else
        let placeholder : ClaudeSession :=
          { session_id := w.newId
            user_email := user_email
            session_name := session_name
            workspace_dir := workspace_dir
            pid := -1
            master_fd := -1
            last_activity := w.now
            started_at := w.now
            alive := true }
        let reg1 := reg ++ [placeholder]
        -- ---- outside the lock: fallible spawn steps ----
        if !w.mkdirOk then (reg1, [], CreateResult.raised "mkdir")
        else if !w.openptyOk then
          (reg1, [Action.mkdirWorkspace workspace_dir], CreateResult.raised "openpty")
        else if !w.forkOk then
          (reg1, [Action.mkdirWorkspace workspace_dir, Action.openPty],
            CreateResult.raised "fork")
        else
          let fin : ClaudeSession :=
            { placeholder with
                pid := w.childPid
                master_fd := w.masterFd
                hasLoop := w.hasRunningLoop
                transcript := if w.transcriptOk then some [] else none }
          let tpath := TRANSCRIPTS_DIR ++ "/" ++ session_name ++ "_" ++ w.ts
            ++ "_" ++ w.newId ++ ".log"
          (replaceById reg1 w.newId fin,
            [Action.mkdirWorkspace workspace_dir, Action.openPty,
              Action.forkChild (child_env parentEnv workspace_dir extraEnv),
              Action.closeFd w.slaveFd]
              ++ (if w.transcriptOk then [Action.openTranscript tpath] else [])
              ++ [Action.startReader w.newId],
            CreateResult.ok fin)

/-- The kill/close/reap sequence of `stop_session` once the session has
been popped: `os.killpg` on the process group, falling back to `os.kill`
on the single pid when the group signal raises (`pgOk` says whether the
group signal succeeded), then close the master descriptor, then a
non-blocking `os.waitpid(pid, WNOHANG)`.  Every OS error is caught. -/
def teardownActions (s : ClaudeSession) (pgOk : Bool) : List Action :=
  (if pgOk then [Action.sigKillPg s.pid] else [Action.sigKillPg s.pid, Action.sigKill s.pid])
    ++ [Action.closeFd s.master_fd, Action.reapWait s.pid]

/-- Source: `SessionManager.stop_session`: pop the id from the registry under the
lock; if absent return at once (no exception on any path); otherwise mark
not-alive and run the teardown sequence. -/
def stop_session (reg : Registry) (sid : String) (pgOk : Bool) : Registry × List Action :=
  match reg.find? (fun s => s.session_id == sid) with
  | none => (reg, [])
  | some s => (reg.filter (fun t => !(t.session_id == sid)), teardownActions s pgOk)

/-- The selection pass of `SessionManager._cleanup_idle` (under the
lock): every session already not alive, plus — when the idle timeout is
enabled — every session idle beyond the threshold. -/
def cleanupSelect (cfg : Config) (reg : Registry) (now : Nat) : List String :=
  reg.filterMap (fun s =>
    if !s.alive then some s.session_id
    else if 0 < cfg.idleTimeoutMinutes
        && cfg.idleTimeoutMinutes * 60 < now - s.last_activity then
      some s.session_id
    else none)

/-- Source: `SessionManager._cleanup_idle`: select under the lock, then call
`stop_session` on each selected id outside the lock. -/
def cleanup_idle (cfg : Config) (reg : Registry) (now : Nat) (pgOk : Bool) :
    Registry × List Action :=
  (cleanupSelect cfg reg now).foldl
    (fun acc sid =>
      let r := stop_session acc.1 sid pgOk
      (r.1, acc.2 ++ r.2))
    (reg, [])

/-- Source: `SessionManager.write_to_session`.  The source returns `None` on
every path: unknown id and dead session fall through silently, and an
`OSError` from `os.write` is caught and only flips `alive` to false.  The
`Except` channel records that no exception escapes (`.ok ()` always). -/
def write_to_session (reg : Registry) (sid : String) (data : Chunk) (now : Nat)
    (osOk : Bool) : Registry × List Action × Except String Unit :=
  match reg.find? (fun s => s.session_id == sid) with
  | none => (reg, [], Except.ok ())
  | some s =>
    if s.alive then
      if osOk then
        (replaceById reg sid { s with last_activity := now },
          [Action.ptyWrite s.master_fd data], Except.ok ())
      else
        (replaceById reg sid { s with alive := false },
          [Action.ptyWrite s.master_fd data], Except.ok ())
    else
      (reg, [], Except.ok ())

/-- Source: `SessionManager.resize_session`: ioctl `TIOCSWINSZ` on the master
descriptor when the session is alive; unknown id, dead session and
`OSError` all fall through silently. -/
def resize_session (reg : Registry) (sid : String) (rows cols : Nat) :
    Registry × List Action × Except String Unit :=
  match reg.find? (fun s => s.session_id == sid) with
  | none => (reg, [], Except.ok ())
  | some s =>
    if s.alive then
      (reg, [Action.ptyResize s.master_fd rows cols], Except.ok ())
    else
      (reg, [], Except.ok ())

/-- Outcome of one blocking `os.read(master_fd, 4096)` in the reader
loop: a non-empty chunk, an empty read (end-of-file), or an `OSError`. -/
inductive ReadEvent where
  | data (c : Chunk)
  | eof
  | readError
deriving DecidableEq

/-- The per-chunk body of `SessionManager._reader_loop`: append the chunk
to the ring buffer, update `last_activity`, append to the transcript when
one is open (a transcript write failure is caught and ignored, which no
claim concerns), and push the chunk into every subscriber queue through
`loop.call_soon_threadsafe` — only possible when `_loop` is set, and a
full queue drops the chunk for that subscriber only. -/
def processChunk (cfg : Config) (s : ClaudeSession) (c : Chunk) (now : Nat) :
    ClaudeSession :=
  { s with
      output_buffer := ringAppend cfg.outputBufferMaxlen s.output_buffer c
      last_activity := now
      transcript := s.transcript.map (fun t => t ++ [c])
      subscribers :=
        if s.hasLoop then s.subscribers.map (fun q => qPut q (some c))
        else s.subscribers }

/-- The `while session.alive` read loop of `_reader_loop`, driven by the
trace of read outcomes: data chunks are processed, and the loop breaks on
end-of-file, on a read error, or when `alive` has been flipped off. -/
def readerConsume (cfg : Config) (now : Nat) : ClaudeSession → List ReadEvent → ClaudeSession
  | s, [] => s
  | s, e :: rest =>
    if s.alive then
      match e with
      | ReadEvent.data c => readerConsume cfg now (processChunk cfg s c now) rest
      | ReadEvent.eof => s
      | ReadEvent.readError => s
    else s

/-- The loop-exit epilogue of `_reader_loop`: set `alive := False`, close
the transcript file, push the `None` end-of-session sentinel into every
subscriber queue (again only through the loop handle, and dropped by a
full queue), then best-effort non-blocking reap of the child pid. -/
def finalizeReader (s : ClaudeSession) : ClaudeSession × List Action :=
  let s1 := { s with alive := false }
  let s2 := { s1 with
    subscribers :=
      if s1.hasLoop then s1.subscribers.map (fun q => qPut q none)
      else s1.subscribers }
  (s2, [Action.reapWait s.pid])

/-- Source: `SessionManager._reader_loop`: the read loop followed by its exit
epilogue. -/
def reader_loop (cfg : Config) (now : Nat) (s : ClaudeSession)
    (events : List ReadEvent) : ClaudeSession × List Action :=
  finalizeReader (readerConsume cfg now s events)

/-- Statements the forked child executes (source lines 241-264), with
Python exception semantics: a raising statement abandons the rest of the
suite and unwinds. -/
inductive CStmt where
  | act (a : Action)
  | execvpe (raisesWith : Option String)
  | exitNow (code : Nat)

/-- How the child branch of the fork ends. -/
inductive ChildOutcome where
  | imageReplaced
  | exitedWith (code : Nat)
  | unwoundErr (err : String)
  | fellThrough
deriving DecidableEq

/-- Exit status of the child branch, when it exits at all. -/
def ChildOutcome.exitCode : ChildOutcome → Option Nat
  | ChildOutcome.exitedWith c => some c
  | _ => none

/-- Sequential execution of the child suite.  `os.execvpe` either
replaces the process image — the following statements never run — or
raises; a raised exception also skips the following statements (in
particular any `os._exit` after the exec line) and propagates out of the
suite into the enclosing (parent-code) call stack of the child process.
An exhausted suite without exec or exit falls through. -/
def runChild : List CStmt → ChildOutcome
  | [] => ChildOutcome.fellThrough
  | CStmt.act _ :: rest => runChild rest
  | CStmt.execvpe none :: _ => ChildOutcome.imageReplaced
  | CStmt.execvpe (some e) :: _ => ChildOutcome.unwoundErr e
  | CStmt.exitNow c :: _ => ChildOutcome.exitedWith c

/-- The child suite of `create_session` after `os.fork()` returns 0:
close the master, `setsid`, attach the slave as controlling terminal,
`dup2` it onto the three standard streams, close it when above 2, chdir
to the workspace, `execvpe` the claude binary, and — textually after the
exec — `os._exit(1)`. -/
def childSuite (masterFd slaveFd : Int) (workspace : String)
    (execRaises : Option String) : List CStmt :=
  [CStmt.act (Action.closeFd masterFd),
    CStmt.act Action.setsid,
    CStmt.act (Action.ioctlSctty slaveFd),
    CStmt.act (Action.dup2 slaveFd 0),
    CStmt.act (Action.dup2 slaveFd 1),
    CStmt.act (Action.dup2 slaveFd 2)]
    ++ (if 2 < slaveFd then [CStmt.act (Action.closeFd slaveFd)] else [])
    ++ [CStmt.act (Action.chdir workspace),
      CStmt.execvpe execRaises, CStmt.exitNow 1]

/-- The child branch of the fork as executed: run the suite. -/
def childAfterFork (masterFd slaveFd : Int) (workspace : String)
    (execRaises : Option String) : ChildOutcome :=
  runChild (childSuite masterFd slaveFd workspace execRaises)

/-- An HTTP response of the FastAPI facade, reduced to status code and
the body tag the handler returns. -/
structure HttpResp where
  status : Nat
  tag : String
deriving DecidableEq

/-- Source: `DELETE /api/sessions/{id}` (app.py `delete_session`): 404 when
`get_session` finds nothing, 403 when the session belongs to another
user, otherwise `stop_session` and 200. -/
def deleteSessionRoute (reg : Registry) (email sid : String) (pgOk : Bool) :
    Registry × HttpResp :=
  match get_session reg sid with
  | none => (reg, { status := 404, tag := "Session not found" })
  | some s =>
    if s.user_email == email then
      ((stop_session reg sid pgOk).1, { status := 200, tag := "stopped" })
    else
      (reg, { status := 403, tag := "Not your session" })

/-- Source: `POST /api/sessions/{id}/resize` (app.py `resize_session` handler):
404 when the session is missing or owned by another user, otherwise
resize and 200. -/
def resizeRoute (reg : Registry) (email sid : String) (rows cols : Nat) :
    Registry × HttpResp :=
  match get_session reg sid with
  | none => (reg, { status := 404, tag := "Session not found" })
  | some s =>
    if s.user_email == email then
      ((resize_session reg sid rows cols).1, { status := 200, tag := "resized" })
    else
      (reg, { status := 404, tag := "Session not found" })

/-- Source: `str.encode` reduced to character codes. -/
def strBytes (s : String) : Chunk :=
  s.toList.map Char.toNat

/-- Source: `POST /api/sessions/{id}/send` (app.py `send_to_session`): 404 when
missing or not owned, 409 when not alive, 400 on empty text, otherwise
append a newline when absent and write to the PTY. -/
def sendRoute (reg : Registry) (email sid text : String) (now : Nat) (osOk : Bool) :
    Registry × HttpResp :=
  match get_session reg sid with
  | none => (reg, { status := 404, tag := "Session not found" })
  | some s =>
    if s.user_email == email then
      if s.alive then
        if text.isEmpty then (reg, { status := 400, tag := "No text provided" })
        else
          let t := if text.endsWith "\n" then text else text ++ "\n"
          ((write_to_session reg sid (strBytes t) now osOk).1,
            { status := 200, tag := "sent" })
      else (reg, { status := 409, tag := "Session is not alive" })
    else (reg, { status := 404, tag := "Session not found" })

/-- The connect sequence of the WebSocket handler `ws_terminal` (app.py
lines 322-338) once the session checks passed: `session.touch()`, replay
of `list(session.output_buffer)` to the socket, then
`queue = session.subscribe()` — a fresh `asyncio.Queue(maxsize=1000)`
appended to the subscriber list.  Returns the session with the new
subscriber and the replayed chunk list. -/
def wsConnect (s : ClaudeSession) (qid : Nat) (now : Nat) :
    ClaudeSession × List Chunk :=
  let s1 := { s with last_activity := now }
  ({ s1 with subscribers := s1.subscribers ++ [{ qid := qid, maxsize := 1000, items := [] }] },
    s1.output_buffer)

/-- Empty the queue `qid`, returning the drained elements: the consuming
task `forward_pty_to_ws` repeatedly awaits `queue.get()`, so between
reader deliveries it drains everything queued, forwarding payloads to the
socket in FIFO order. -/
def drainQueue (s : ClaudeSession) (qid : Nat) : ClaudeSession × List (Option Chunk) :=
  match s.subscribers.find? (fun q => q.qid == qid) with
  | none => (s, [])
  | some q =>
    ({ s with subscribers :=
        s.subscribers.map (fun q2 => if q2.qid == qid then { q2 with items := [] } else q2) },
      q.items)

/-- Live phase after the subscription: for each newly produced chunk, the
reader runs its per-chunk body (buffer, transcript, broadcast), then the
consuming task drains its queue.  Returns the final session and the
payloads the subscriber received live, in order. -/
def deliverDrain (cfg : Config) (now : Nat) (qid : Nat) :
    ClaudeSession → List Chunk → ClaudeSession × List Chunk
  | s, [] => (s, [])
  | s, c :: rest =>
    let s1 := processChunk cfg s c now
    let d := drainQueue s1 qid
    let r := deliverDrain cfg now qid d.1 rest
    (r.1, d.2.filterMap id ++ r.2)

/-! ## Concrete instances used by witnesses and counterexamples -/

/-- A dead session with the duplicated (owner, name) pair, used as the
concrete counterexample state. -/
def deadDup : ClaudeSession :=
  { session_id := "s1", user_email := "a", session_name := "x",
    master_fd := 3, pid := 9, workspace_dir := "/w0", alive := false }

/-- Concrete spawn-world inputs for the counterexample calls. -/
def w0 : SpawnWorld :=
  { newId := "f00dfeedc0de", now := 100, ts := "20260101-000000" }

/-- A live session used by several witnesses. -/
def liveS0 : ClaudeSession :=
  { session_id := "s1", user_email := "a", session_name := "x",
    master_fd := 3, pid := 9, workspace_dir := "/w0", alive := true }

/-- Spawn world in which `pty.openpty()` raises (descriptor
exhaustion). -/
def wPtyFail : SpawnWorld :=
  { newId := "f00dfeedc0de", now := 100, ts := "20260101-000000", openptyOk := false }

/-- The placeholder `create_session` inserts for owner "a", name "x"
before spawning, when the registry was empty. -/
def placeholder0 : ClaudeSession :=
  { session_id := "f00dfeedc0de", user_email := "a", session_name := "x",
    workspace_dir := "./workspaces/ahash/x", pid := -1, master_fd := -1,
    last_activity := 100, started_at := 100, alive := true }

/-- A live session with a loop handle and no subscribers yet, used by the
C7 and C8 witnesses. -/
def sLoop0 : ClaudeSession :=
  { session_id := "s1", user_email := "a", session_name := "x",
    master_fd := 3, pid := 9, workspace_dir := "/w0", alive := true, hasLoop := true }

/-- Ring capacity 2 configuration for the C7 witness. -/
def cfg2 : Config := { outputBufferMaxlen := 2 }

/-- A subscriber queue already full when the reader exits (reachable: the
consuming task lagged 1000 undrained chunks behind). -/
def qFull : SubQueue :=
  { qid := 0, maxsize := 1000, items := List.replicate 1000 (some []) }

/-- A live session whose only subscriber has a full queue. -/
def sFull : ClaudeSession :=
  { session_id := "s1", user_email := "a", session_name := "x",
    master_fd := 3, pid := 9, workspace_dir := "/w0", alive := true,
    hasLoop := true, subscribers := [qFull] }

/-- A session with one empty subscriber queue, for the C8 witness. -/
def sSub0 : ClaudeSession :=
  { session_id := "s1", user_email := "a", session_name := "x",
    master_fd := 3, pid := 9, workspace_dir := "/w0", alive := true,
    hasLoop := true, subscribers := [{ qid := 0, maxsize := 1000, items := [] }] }

/-- Concrete parent environment for the C9 witness, holding one
credential-looking key. -/
def parent0 : Env :=
  [("DATABRICKS_OAUTH_TOKEN", "secret"), ("USER", "alice"),
    ("HOME", "/home/a"), ("PATH", "/bin")]

/-! ## Helper lemmas -/

theorem liveCount_append_one (reg : Registry) (s : ClaudeSession) :
    liveCount (reg ++ [s]) = liveCount reg + (if s.alive then 1 else 0) := by
  simp [liveCount, List.countP_append, List.countP_cons]

theorem userLive_append_one (reg : Registry) (s : ClaudeSession) (u : String) :
    userLive (reg ++ [s]) u
      = userLive reg u + (if s.alive && s.user_email == u then 1 else 0) := by
  simp [userLive, List.countP_append, List.countP_cons]

theorem replaceById_append_fresh (reg : Registry) (sid : String)
    (p fin : ClaudeSession) (hfresh : ∀ s ∈ reg, s.session_id ≠ sid)
    (hp : p.session_id = sid) :
    replaceById (reg ++ [p]) sid fin = reg ++ [fin] := by
  unfold replaceById
  rw [List.map_append]
  have h1 : reg.map (fun t => if t.session_id == sid then fin else t) = reg := by
    have := List.map_congr_left
      (l := reg) (f := fun t => if t.session_id == sid then fin else t) (g := id)
      (fun a ha => by simp [beq_eq_false_iff_ne.mpr (hfresh a ha)])
    simpa using this
  have h2 : [p].map (fun t => if t.session_id == sid then fin else t) = [fin] := by
    simp [hp]
  rw [h1, h2]

theorem find?_filter_out (reg : Registry) (sid : String) :
    (reg.filter (fun t => !(t.session_id == sid))).find?
      (fun t => t.session_id == sid) = none := by
  rw [List.find?_eq_none]
  intro x hx
  have := (List.mem_filter.mp hx).2
  simp at this
  simp [this]

/-! ## C1 — idempotent create and the alive flag -/

/-- C1 counterexample: with the registry holding exactly one session for
(owner "a", name "x") whose alive flag is false, `create_session`
returns that dead session unchanged and inserts nothing — the claim says
a dead duplicate does not cause the existing session to be returned. -/
theorem claim1_counterexample :
    deadDup.alive = false
      ∧ create_session {} w0 [deadDup] "a" "x" none none [] (fun e => e)
          = ([deadDup], [], CreateResult.ok deadDup) := by
  constructor
  · rfl
  · rfl

/-- C1 (amended): the duplicate-(owner, name) scan of `create_session`
ignores the alive flag: whenever the global live cap is not yet reached
and any session — live or dead — with the pair is registered, the call
returns the first such session (same id) and creates nothing new: the
registry is unchanged and no OS action is performed. -/
theorem claim1_amended (cfg : Config) (w : SpawnWorld) (reg : Registry)
    (u n : String) (extra : Option Env) (wo : Option String) (penv : Env)
    (hash : String → String) (s : ClaudeSession)
    (hcap : liveCount reg < cfg.maxSessions)
    (hdup : findDup reg u n = some s) :
    create_session cfg w reg u n extra wo penv hash = (reg, [], CreateResult.ok s) := by
  have h1 : ¬ cfg.maxSessions ≤ liveCount reg := Nat.not_le.mpr hcap
  simp [create_session, h1, hdup]

/-- C1 witness: the amended theorem applied at a concrete registry
holding one live duplicate. -/
theorem claim1_witness :
    create_session {} w0 [liveS0] "a" "x" none none [] (fun e => e)
      = ([liveS0], [], CreateResult.ok liveS0) :=
  claim1_amended {} w0 [liveS0] "a" "x" none none [] (fun e => e) liveS0
    (by decide) (by decide)

/-! ## C10 — workspace override ignored on idempotent create -/

/-- C10: when some session with (owner, name) is already registered and
the global live cap is not reached, a `create_session` call supplying a
different `workspace_override` returns that session as-is: the registry
(hence the stored workspace directory) is unchanged, no workspace
directory is created, and the returned session keeps its original
workspace, not the override. -/
theorem claim10_override_ignored (cfg : Config) (w : SpawnWorld) (reg : Registry)
    (u n wover : String) (extra : Option Env) (penv : Env)
    (hash : String → String) (s : ClaudeSession)
    (hcap : liveCount reg < cfg.maxSessions)
    (hdup : findDup reg u n = some s)
    (hdiff : wover ≠ s.workspace_dir) :
    create_session cfg w reg u n extra (some wover) penv hash
        = (reg, [], CreateResult.ok s)
      ∧ (∀ p, Action.mkdirWorkspace p
          ∉ (create_session cfg w reg u n extra (some wover) penv hash).2.1)
      ∧ s.workspace_dir ≠ wover := by
  have h1 : ¬ cfg.maxSessions ≤ liveCount reg := Nat.not_le.mpr hcap
  refine ⟨?_, ?_, fun h => hdiff h.symm⟩
  · simp [create_session, h1, hdup]
  · intro p
    simp [create_session, h1, hdup]

/-- C10 witness: concrete call with an override differing from the
stored workspace. -/
theorem claim10_witness :
    create_session {} w0 [liveS0] "a" "x" none (some "/elsewhere") [] (fun e => e)
      = ([liveS0], [], CreateResult.ok liveS0) := by
  have h := claim10_override_ignored {} w0 [liveS0] "a" "x" "/elsewhere" none []
    (fun e => e) liveS0 (by decide) (by decide) (by decide)
  exact h.1

/-! ## C2 — placeholder rollback on spawn failure -/

/-- C2: the source wraps none of the spawn steps in try/except and has no
rollback code; evaluating `create_session` on an empty registry with
`pty.openpty()` failing shows the exception propagating while the
placeholder — still alive, with pid −1 — remains registered.  The
registry is *not* left as it was before the call. -/
theorem claim2_no_rollback :
    create_session {} wPtyFail [] "a" "x" none none [] (fun _ => "ahash")
        = ([placeholder0], [Action.mkdirWorkspace "./workspaces/ahash/x"],
            CreateResult.raised "openpty")
      ∧ placeholder0.alive = true
      ∧ (create_session {} wPtyFail [] "a" "x" none none [] (fun _ => "ahash")).1 ≠ [] := by
  refine ⟨by decide, by decide, ?_⟩
  intro h
  rw [show (create_session {} wPtyFail [] "a" "x" none none [] (fun _ => "ahash")).1
      = [placeholder0] from by decide] at h
  exact absurd h (by simp)

/-! ## C3 — capacity invariant -/

/-- C3: inside the single critical section, `create_session` rejects a
call once the global live count has reached the cap (registry unchanged,
nothing inserted, no OS action), rejects a call once the caller is at the
per-owner cap (likewise), and — whatever the spawn outcome — preserves
both capacity invariants: a registry holding at most `maxSessions` live
sessions, and at most `maxSessionsPerUser` live sessions per owner, still
does after the call.  `hfresh` is uuid freshness of the generated id. -/
theorem claim3_capacity (cfg : Config) (w : SpawnWorld) (reg : Registry)
    (u n : String) (extra : Option Env) (wo : Option String) (penv : Env)
    (hash : String → String)
    (hfresh : ∀ s ∈ reg, s.session_id ≠ w.newId) :
    (cfg.maxSessions ≤ liveCount reg →
        create_session cfg w reg u n extra wo penv hash
          = (reg, [], CreateResult.capacityError))
      ∧ (liveCount reg < cfg.maxSessions → findDup reg u n = none →
          cfg.maxSessionsPerUser ≤ userLive reg u →
          create_session cfg w reg u n extra wo penv hash
            = (reg, [], CreateResult.perUserError))
      ∧ (liveCount reg ≤ cfg.maxSessions →
          liveCount (create_session cfg w reg u n extra wo penv hash).1
            ≤ cfg.maxSessions)
      ∧ (∀ uu, userLive reg uu ≤ cfg.maxSessionsPerUser →
          userLive (create_session cfg w reg u n extra wo penv hash).1 uu
            ≤ cfg.maxSessionsPerUser) := by
  refine ⟨?_, ?_, ?_, ?_⟩
  · intro h
    simp [create_session, h]
  · intro h1 h2 h3
    simp [create_session, Nat.not_le.mpr h1, h2, h3]
  · intro hle
    by_cases hcap : cfg.maxSessions ≤ liveCount reg
    · simp [create_session, hcap, hle]
    · cases hdup : findDup reg u n with
      | some s => simp [create_session, hcap, hdup, hle]
      | none =>
        by_cases huser : cfg.maxSessionsPerUser ≤ userLive reg u
        · simp [create_session, hcap, hdup, huser, hle]
        · have hlt : liveCount reg < cfg.maxSessions := Nat.lt_of_not_le hcap
          simp only [create_session, if_neg hcap, hdup, if_neg huser]
          by_cases hm : w.mkdirOk <;> by_cases ho : w.openptyOk
            <;> by_cases hf : w.forkOk <;>
            simp only [hm, ho, hf, Bool.not_true, Bool.not_false, if_true, if_false,
              Bool.false_eq_true, ite_true, ite_false]
          all_goals
            first
            | (rw [liveCount_append_one]; simp; omega)
            | (rw [replaceById_append_fresh reg w.newId _ _ hfresh rfl,
                liveCount_append_one]; simp; omega)
  · intro uu hle
    by_cases hcap : cfg.maxSessions ≤ liveCount reg
    · simp [create_session, hcap, hle]
    · cases hdup : findDup reg u n with
      | some s => simp [create_session, hcap, hdup, hle]
      | none =>
        by_cases huser : cfg.maxSessionsPerUser ≤ userLive reg u
        · simp [create_session, hcap, hdup, huser, hle]
        · have hult : userLive reg u < cfg.maxSessionsPerUser := Nat.lt_of_not_le huser
          simp only [create_session, if_neg hcap, hdup, if_neg huser]
          by_cases hm : w.mkdirOk <;> by_cases ho : w.openptyOk
            <;> by_cases hf : w.forkOk <;>
            simp only [hm, ho, hf, Bool.not_true, Bool.not_false, if_true, if_false,
              Bool.false_eq_true, ite_true, ite_false]
          all_goals
            first
            | (rw [userLive_append_one]
               by_cases huu : u = uu
               · subst huu; simp; omega
               · simp [beq_eq_false_iff_ne.mpr huu]; omega)
            | (rw [replaceById_append_fresh reg w.newId _ _ hfresh rfl,
                userLive_append_one]
               by_cases huu : u = uu
               · subst huu; simp; omega
               · simp [beq_eq_false_iff_ne.mpr huu]; omega)

/-- C3 witness: at a cap of 1 with one live session, a second create for
a different owner is rejected with the capacity error, and the registry
invariants hold after a successful create on an empty registry. -/
theorem claim3_witness :
    create_session { maxSessions := 1 } w0 [liveS0] "b" "y" none none [] (fun e => e)
        = ([liveS0], [], CreateResult.capacityError)
      ∧ liveCount (create_session { maxSessions := 1 } w0 [] "b" "y" none none []
          (fun e => e)).1 ≤ 1 := by
  have h1 := (claim3_capacity { maxSessions := 1 } w0 [liveS0] "b" "y" none none []
    (fun e => e) (by decide)).1 (by decide)
  have h2 := (claim3_capacity { maxSessions := 1 } w0 [] "b" "y" none none []
    (fun e => e) (by decide)).2.2.1 (by decide)
  exact ⟨h1, h2⟩

/-! ## C4 — idempotent stop / teardown convergence -/

/-- C4: the first `stop_session` that finds the id pops it under the lock
and runs the kill/close/reap teardown exactly once; afterwards the id is
absent; a second `stop_session` on the same id — or a stop after the idle
reaper already evicted the id through the same path — performs no OS
action, changes nothing and returns normally (every OS error inside the
teardown is caught, and the absent-id path is a plain early return). -/
theorem claim4_stop_idempotent (cfg : Config) (reg : Registry) (sid : String)
    (pg pg2 : Bool) (now : Nat) :
    (stop_session (stop_session reg sid pg).1 sid pg2
        = ((stop_session reg sid pg).1, []))
      ∧ ((stop_session reg sid pg).1.find? (fun t => t.session_id == sid) = none)
      ∧ (∀ s, reg.find? (fun t => t.session_id == sid) = some s →
          stop_session reg sid pg
            = (reg.filter (fun t => !(t.session_id == sid)), teardownActions s pg))
      ∧ (reg.find? (fun t => t.session_id == sid) = none →
          stop_session reg sid pg = (reg, []))
      ∧ ((cleanup_idle cfg reg now pg).1.find? (fun t => t.session_id == sid) = none →
          stop_session (cleanup_idle cfg reg now pg).1 sid pg2
            = ((cleanup_idle cfg reg now pg).1, [])) := by
  have habsent : ∀ (r : Registry),
      r.find? (fun t => t.session_id == sid) = none →
      ∀ pgx, stop_session r sid pgx = (r, []) := by
    intro r hr pgx
    simp [stop_session, hr]
  have hgone : (stop_session reg sid pg).1.find? (fun t => t.session_id == sid) = none := by
    cases hfind : reg.find? (fun t => t.session_id == sid) with
    | none => simp [stop_session, hfind]
    | some s => simp only [stop_session, hfind]; exact find?_filter_out reg sid
  refine ⟨habsent _ hgone pg2, hgone, ?_, fun h => habsent reg h pg, fun h => habsent _ h pg2⟩
  intro s hs
  simp [stop_session, hs]

/-- C4 witness: a registry with one session, stopped twice with the
group signal failing on the first call (so the fallback single-pid kill
appears in the trace). -/
theorem claim4_witness :
    stop_session [liveS0] "s1" false
        = ([], [Action.sigKillPg 9, Action.sigKill 9, Action.closeFd 3,
            Action.reapWait 9])
      ∧ stop_session (stop_session [liveS0] "s1" false).1 "s1" true
        = ((stop_session [liveS0] "s1" false).1, []) := by
  have h := claim4_stop_idempotent {} [liveS0] "s1" false true 0
  exact ⟨(h.2.2.1 liveS0 (by decide)).trans (by decide), h.1⟩

/-! ## C5 — exec-failure containment in the child -/

/-- C5 (code bug): with no candidate binary installed the resolver falls
back to the bare name `claude`; when the subsequent `os.execvpe` raises
(for instance `FileNotFoundError` because PATH holds no `claude`), the
child branch ends by unwinding the exception — the `os._exit(1)` written
after the exec line never executes (exec either replaces the image or
raises, so execution never reaches it), and the child has no exit status
of its own: it falls back into the parent code of its copied stack.  The
successful-exec case replaces the image as expected. -/
theorem claim5_exec_failure_escapes :
    resolve_claude_binary "/home/u" (fun _ => false) = "claude"
      ∧ childAfterFork 3 4 "/ws" (some "FileNotFoundError")
          = ChildOutcome.unwoundErr "FileNotFoundError"
      ∧ (childAfterFork 3 4 "/ws" (some "FileNotFoundError")).exitCode = none
      ∧ childAfterFork 3 4 "/ws" none = ChildOutcome.imageReplaced := by
  exact ⟨rfl, rfl, rfl, rfl⟩

/-! ## C6 — not-found signalling for write / resize / stop -/

/-- C6 counterexample: against an empty registry, the manager-level
`write_to_session`, `resize_session` and `stop_session` return normally
for an unknown id — no action performed, registry unchanged, and the
exception channel carrying `.ok ()` (the source functions return `None`
and raise nothing on this path).  No SessionNotFound-style error result
reaches the caller of these functions: they silently succeed, which is
exactly what the claim denies. -/
theorem claim6_counterexample :
    write_to_session [] "deadbeef" [104] 0 true = ([], [], Except.ok ())
      ∧ resize_session [] "deadbeef" 24 80 = ([], [], Except.ok ())
      ∧ stop_session [] "deadbeef" true = ([], []) := by
  exact ⟨rfl, rfl, rfl⟩

/-- C6 (amended): the not-found signalling lives one layer up.  For an
id absent from the registry, the manager functions are silent no-ops that
return normally (never a crash), while the HTTP facade — the delete,
resize and send endpoints of app.py — checks `get_session` first and
answers 404 Session-not-found to the caller. -/
theorem claim6_amended (reg : Registry) (sid email text : String)
    (data : Chunk) (now : Nat) (osOk pgOk : Bool) (rows cols : Nat)
    (habsent : reg.find? (fun t => t.session_id == sid) = none) :
    write_to_session reg sid data now osOk = (reg, [], Except.ok ())
      ∧ resize_session reg sid rows cols = (reg, [], Except.ok ())
      ∧ stop_session reg sid pgOk = (reg, [])
      ∧ deleteSessionRoute reg email sid pgOk
          = (reg, { status := 404, tag := "Session not found" })
      ∧ resizeRoute reg email sid rows cols
          = (reg, { status := 404, tag := "Session not found" })
      ∧ sendRoute reg email sid text now osOk
          = (reg, { status := 404, tag := "Session not found" }) := by
  refine ⟨?_, ?_, ?_, ?_, ?_, ?_⟩
  · simp [write_to_session, habsent]
  · simp [resize_session, habsent]
  · simp [stop_session, habsent]
  · simp [deleteSessionRoute, get_session, habsent]
  · simp [resizeRoute, get_session, habsent]
  · simp [sendRoute, get_session, habsent]

/-- C6 witness: the amended theorem applied to a one-session registry
and an id not in it. -/
theorem claim6_witness :
    stop_session [liveS0] "nope" true = ([liveS0], [])
      ∧ deleteSessionRoute [liveS0] "a" "nope" true
        = ([liveS0], { status := 404, tag := "Session not found" }) := by
  have h := claim6_amended [liveS0] "nope" "a" "hi" [104] 0 true true 24 80 (by decide)
  exact ⟨h.2.2.1, h.2.2.2.1⟩

/-! ## C7 — replay completeness and order -/

theorem foldl_ringAppend (m : Nat) (pre : List Chunk) : ∀ (buf : List Chunk),
    buf.length ≤ m →
    pre.foldl (ringAppend m) buf = (buf ++ pre).drop (buf.length + pre.length - m) := by
  induction pre with
  | nil =>
    intro buf h
    simp [Nat.sub_eq_zero_of_le h]
  | cons c pre ih =>
    intro buf h
    have hlen : (ringAppend m buf c).length ≤ m := by
      simp only [ringAppend, List.length_drop, List.length_append, List.length_cons,
        List.length_nil]
      omega
    rw [List.foldl_cons, ih _ hlen]
    have hd : buf.length + 1 - m ≤ (buf ++ [c]).length := by
      simp only [List.length_append, List.length_cons, List.length_nil]
      omega
    rw [show ringAppend m buf c = (buf ++ [c]).drop (buf.length + 1 - m) from rfl]
    rw [← List.drop_append_of_le_length hd, List.drop_drop, List.length_drop]
    rw [show buf ++ [c] ++ pre = buf ++ c :: pre by simp]
    congr 1
    simp only [List.length_append, List.length_cons, List.length_nil]
    omega

theorem foldl_processChunk (cfg : Config) (now : Nat) (pre : List Chunk) :
    ∀ (s : ClaudeSession), s.subscribers = [] →
    ((pre.foldl (fun s2 c => processChunk cfg s2 c now) s).output_buffer
        = pre.foldl (ringAppend cfg.outputBufferMaxlen) s.output_buffer)
      ∧ (pre.foldl (fun s2 c => processChunk cfg s2 c now) s).subscribers = []
      ∧ (pre.foldl (fun s2 c => processChunk cfg s2 c now) s).hasLoop = s.hasLoop := by
  induction pre with
  | nil =>
    intro s h
    exact ⟨rfl, h, rfl⟩
  | cons c pre ih =>
    intro s h
    have h1 : (processChunk cfg s c now).subscribers = [] := by
      simp [processChunk, h]
    have h2 := ih (processChunk cfg s c now) h1
    refine ⟨?_, h2.2.1, ?_⟩
    · rw [List.foldl_cons, h2.1]
      simp [processChunk]
    · rw [List.foldl_cons, h2.2.2]
      simp [processChunk]

theorem deliverDrain_solo (cfg : Config) (now : Nat) (qid : Nat) (post : List Chunk) :
    ∀ (s : ClaudeSession), s.hasLoop = true →
    s.subscribers = [{ qid := qid, maxsize := 1000, items := [] }] →
    (deliverDrain cfg now qid s post).2 = post := by
  induction post with
  | nil =>
    intro s _ _
    rfl
  | cons c rest ih =>
    intro s hl hs
    have h1 : (processChunk cfg s c now).subscribers
        = [{ qid := qid, maxsize := 1000, items := [some c] }] := by
      simp [processChunk, hl, hs, qPut]
    have hd : drainQueue (processChunk cfg s c now) qid
        = ({ processChunk cfg s c now with
              subscribers := [{ qid := qid, maxsize := 1000, items := [] }] },
            [some c]) := by
      simp [drainQueue, h1]
    simp only [deliverDrain, hd]
    rw [ih _ (by simp [processChunk, hl]) (by rfl)]
    simp

/-- C7: a subscriber that connects after the reader produced the chunks
`pre` receives, in production order, exactly the still-buffered suffix of
`pre` (bounded by the ring capacity) during replay, followed by every
chunk produced after the subscription — no duplication, no gap beyond
ring eviction.  `base` is the session at spawn time (empty buffer, no
subscribers, a loop handle); the live phase is the reader broadcast
followed by the consuming task draining its queue. -/
theorem claim7_replay (cfg : Config) (base : ClaudeSession) (pre post : List Chunk)
    (qid : Nat) (nowPre nowConn nowLive : Nat)
    (hb : base.output_buffer = []) (hs : base.subscribers = [])
    (hl : base.hasLoop = true) :
    (wsConnect (pre.foldl (fun s2 c => processChunk cfg s2 c nowPre) base) qid nowConn).2
        ++ (deliverDrain cfg nowLive qid
            (wsConnect (pre.foldl (fun s2 c => processChunk cfg s2 c nowPre) base)
              qid nowConn).1 post).2
      = pre.drop (pre.length - cfg.outputBufferMaxlen) ++ post := by
  have hf := foldl_processChunk cfg nowPre pre base hs
  have hbuf : (pre.foldl (fun s2 c => processChunk cfg s2 c nowPre) base).output_buffer
      = pre.drop (pre.length - cfg.outputBufferMaxlen) := by
    rw [hf.1, hb, foldl_ringAppend cfg.outputBufferMaxlen pre [] (by simp)]
    simp
  have hreplay : (wsConnect (pre.foldl (fun s2 c => processChunk cfg s2 c nowPre) base)
      qid nowConn).2 = pre.drop (pre.length - cfg.outputBufferMaxlen) := by
    simp [wsConnect, hbuf]
  have hconn1 : (wsConnect (pre.foldl (fun s2 c => processChunk cfg s2 c nowPre) base)
      qid nowConn).1.subscribers = [{ qid := qid, maxsize := 1000, items := [] }] := by
    simp [wsConnect, hf.2.1]
  have hconnl : (wsConnect (pre.foldl (fun s2 c => processChunk cfg s2 c nowPre) base)
      qid nowConn).1.hasLoop = true := by
    simp [wsConnect, hf.2.2, hl]
  rw [hreplay, deliverDrain_solo cfg nowLive qid post _ hconnl hconn1]

/-- C7 witness: with ring capacity 2, three chunks produced before the
connect and two after, the subscriber receives the evicted-suffix replay
`[2],[3]` followed by `[4],[5]`. -/
theorem claim7_witness :
    (wsConnect ([[1],[2],[3]].foldl (fun s2 c => processChunk cfg2 s2 c 7) sLoop0) 0 8).2
        ++ (deliverDrain cfg2 9 0
            (wsConnect ([[1],[2],[3]].foldl (fun s2 c => processChunk cfg2 s2 c 7) sLoop0)
              0 8).1 [[4],[5]]).2
      = [[2],[3],[4],[5]] := by
  have h := claim7_replay cfg2 sLoop0 [[1],[2],[3]] [[4],[5]] 0 7 8 9 rfl rfl rfl
  exact h.trans (by decide)

/-! ## C8 — reader termination protocol -/

theorem readerConsume_fields (cfg : Config) (now : Nat) (evs : List ReadEvent) :
    ∀ (s : ClaudeSession),
    (readerConsume cfg now s evs).pid = s.pid
      ∧ (readerConsume cfg now s evs).hasLoop = s.hasLoop := by
  induction evs with
  | nil =>
    intro s
    exact ⟨rfl, rfl⟩
  | cons e rest ih =>
    intro s
    cases ha : s.alive
    · simp [readerConsume, ha]
    · cases e with
      | data c =>
        have h := ih (processChunk cfg s c now)
        simp only [readerConsume, ha, if_true]
        exact ⟨h.1.trans (by simp [processChunk]), h.2.trans (by simp [processChunk])⟩
      | eof => simp [readerConsume, ha]
      | readError => simp [readerConsume, ha]

/-- C8 (amended): for every trace of reads ending in end-of-file or a
read error, the reader loop exits, the alive flag of the session is false, the
end-of-session sentinel `none` is pushed to every subscriber queue
registered at loop exit — enqueued for exactly those whose bounded queue
still has room, dropped for a full queue — and the loop finishes with the
best-effort non-blocking reap of the child pid. -/
theorem claim8_reader_termination (cfg : Config) (now : Nat) (s : ClaudeSession)
    (ds : List Chunk) (t : ReadEvent)
    (halive : s.alive = true) (hloop : s.hasLoop = true)
    (ht : t = ReadEvent.eof ∨ t = ReadEvent.readError) :
    ((reader_loop cfg now s (ds.map ReadEvent.data ++ [t])).1.alive = false)
      ∧ ((reader_loop cfg now s (ds.map ReadEvent.data ++ [t])).2
          = [Action.reapWait s.pid])
      ∧ ((reader_loop cfg now s (ds.map ReadEvent.data ++ [t])).1.subscribers
          = (readerConsume cfg now s (ds.map ReadEvent.data ++ [t])).subscribers.map
              (fun q => qPut q none))
      ∧ (∀ q ∈ (readerConsume cfg now s (ds.map ReadEvent.data ++ [t])).subscribers,
          q.items.length < q.maxsize →
            qPut q none = { q with items := q.items ++ [none] }) := by
  have hf := readerConsume_fields cfg now (ds.map ReadEvent.data ++ [t]) s
  refine ⟨by simp [reader_loop, finalizeReader], ?_, ?_, ?_⟩
  · simp [reader_loop, finalizeReader, hf.1]
  · simp [reader_loop, finalizeReader, hf.2, hloop]
  · intro q _ hroom
    simp [qPut, hroom]

/-- C8 counterexample: on end-of-file the reader exits and flips alive to
false, but the subscriber whose queue is full receives no sentinel — its
queue is unchanged and contains no `none` — contradicting the claim that
the sentinel is delivered to every subscriber registered at that
moment. -/
theorem claim8_counterexample :
    (reader_loop {} 0 sFull [ReadEvent.eof]).1.alive = false
      ∧ (reader_loop {} 0 sFull [ReadEvent.eof]).1.subscribers = [qFull]
      ∧ ((none : Option Chunk) ∉ qFull.items) := by
  have hmax : qFull.maxsize = 1000 := rfl
  have hlen : qFull.items.length = 1000 := by
    rw [show qFull.items = List.replicate 1000 (some ([] : Chunk)) from rfl,
      List.length_replicate]
  have hq : qPut qFull none = qFull := by
    unfold qPut
    rw [hlen, hmax, if_neg (by omega)]
  have hcons : readerConsume {} 0 sFull [ReadEvent.eof] = sFull := rfl
  refine ⟨rfl, ?_, ?_⟩
  · show (finalizeReader (readerConsume {} 0 sFull [ReadEvent.eof])).1.subscribers = [qFull]
    rw [hcons]
    show (if sFull.hasLoop then sFull.subscribers.map (fun q => qPut q none)
        else sFull.subscribers) = [qFull]
    rw [show sFull.hasLoop = true from rfl, if_pos rfl,
      show sFull.subscribers = [qFull] from rfl, List.map_cons, List.map_nil, hq]
  · intro hmem
    rw [show qFull.items = List.replicate 1000 (some ([] : Chunk)) from rfl] at hmem
    exact absurd (List.eq_of_mem_replicate hmem) (by simp)

/-- C8 witness: the amended theorem at a one-chunk trace ending in
end-of-file, with a subscriber whose queue has room: alive flips to
false, the pid 9 is reaped, and the sentinel lands in the queue. -/
theorem claim8_witness :
    (reader_loop {} 5 sSub0 ([[1]].map ReadEvent.data ++ [ReadEvent.eof])).1.alive = false
      ∧ (reader_loop {} 5 sSub0 ([[1]].map ReadEvent.data ++ [ReadEvent.eof])).2
        = [Action.reapWait 9] := by
  have h := claim8_reader_termination {} 5 sSub0 [[1]] ReadEvent.eof rfl rfl (Or.inl rfl)
  exact ⟨h.1, h.2.1⟩

/-! ## C9 — child environment filtering -/

theorem setmap_pred (k k' v : String) :
    ((fun kv : String × String => kv.1 == k)
        ∘ (fun kv => if kv.1 == k' then (k', v) else kv))
      = fun kv : String × String => kv.1 == k := by
  funext kv
  by_cases hk : kv.1 == k'
  · have hkv : kv.1 = k' := eq_of_beq hk
    simp [Function.comp, hk, hkv]
  · simp [Function.comp, hk]

theorem envGet_envSet_self (e : Env) (k v : String) :
    envGet (envSet e k v) k = some v := by
  unfold envSet envGet
  by_cases hany : e.any (fun kv => kv.1 == k)
  · rw [if_pos hany, List.find?_map, setmap_pred k k v]
    obtain ⟨x, hmem, hx⟩ := List.any_eq_true.mp hany
    have hsome : (e.find? (fun kv => kv.1 == k)).isSome :=
      List.find?_isSome.mpr ⟨x, hmem, hx⟩
    obtain ⟨y, hy⟩ := Option.isSome_iff_exists.mp hsome
    have hyk : (y.1 == k) = true := by simpa using List.find?_some hy
    rw [hy]
    simp [eq_of_beq hyk]
  · rw [if_neg hany, List.find?_append]
    have hnone : e.find? (fun kv => kv.1 == k) = none := by
      rw [List.find?_eq_none]
      intro x hx hpx
      exact hany (List.any_eq_true.mpr ⟨x, hx, hpx⟩)
    rw [hnone]
    simp

theorem envGet_envSet_ne (e : Env) (k k' v : String) (h : k' ≠ k) :
    envGet (envSet e k' v) k = envGet e k := by
  unfold envSet envGet
  by_cases hany : e.any (fun kv => kv.1 == k')
  · rw [if_pos hany, List.find?_map, setmap_pred k k' v]
    cases hfind : e.find? (fun kv => kv.1 == k) with
    | none => simp
    | some y =>
      have hp : (y.1 == k) = true := by simpa using List.find?_some hfind
      have hyne : (y.1 == k') = false := by
        rw [eq_of_beq hp]
        exact beq_eq_false_iff_ne.mpr (Ne.symm h)
      simp [beq_eq_false_iff_ne.mp hyne]
  · rw [if_neg hany, List.find?_append]
    cases hfind : e.find? (fun kv => kv.1 == k) with
    | some y => simp
    | none => simp [beq_eq_false_iff_ne.mpr h]

theorem envGet_strip (e : Env) (k : String) :
    envGet (e.filter (fun kv => !(oauthKey kv.1))) k
      = if oauthKey k then none else envGet e k := by
  induction e with
  | nil => by_cases ho : oauthKey k <;> simp [envGet, ho]
  | cons kv rest ih =>
    by_cases hk : kv.1 == k
    · have hkv : kv.1 = k := eq_of_beq hk
      by_cases ho : oauthKey k
      · rw [List.filter_cons_of_neg (by simp [hkv, ho]), ih, if_pos ho, if_pos ho]
      · rw [List.filter_cons_of_pos (by simp [hkv, ho]), if_neg ho]
        unfold envGet
        rw [List.find?_cons_of_pos (p := fun kv2 : String × String => kv2.1 == k) _ hk,
          List.find?_cons_of_pos (p := fun kv2 : String × String => kv2.1 == k) _ hk]
    · by_cases hkeep : oauthKey kv.1
      · rw [List.filter_cons_of_neg (by simp [hkeep]), ih]
        by_cases ho : oauthKey k
        · rw [if_pos ho, if_pos ho]
        · rw [if_neg ho, if_neg ho]
          unfold envGet
          rw [List.find?_cons_of_neg _ (by simp [hk])]
      · rw [List.filter_cons_of_pos (by simp [hkeep])]
        unfold envGet at ih ⊢
        rw [List.find?_cons_of_neg _ (by simp [hk]), ih]
        by_cases ho : oauthKey k
        · rw [if_pos ho, if_pos ho]
        · rw [if_neg ho, if_neg ho,
            List.find?_cons_of_neg _ (by simp [hk])]

/-- C9: with no extra caller env, the child environment built by
`create_session` strips every credential-looking key (any key whose
uppercasing contains `OAUTH`), injects the home directory, the working
directory (`PWD` = the workspace), the terminal type and the search path
with exactly the values the source assigns, and maps every other
non-injected key to its parent value. -/
theorem claim9_env_filtering (parent : Env) (w : String) :
    (∀ k, oauthKey k = true → envGet (child_env parent w none) k = none)
      ∧ envGet (child_env parent w none) "HOME" = some (homeDirOf parent)
      ∧ envGet (child_env parent w none) "PWD" = some w
      ∧ envGet (child_env parent w none) "TERM" = some "xterm-256color"
      ∧ envGet (child_env parent w none) "PATH"
          = some (homeDirOf parent ++ "/.local/bin:" ++ pathOf parent)
      ∧ (∀ k, oauthKey k = false →
          k ≠ "HOME" → k ≠ "PWD" → k ≠ "TERM" → k ≠ "LANG" → k ≠ "PATH" →
          envGet (child_env parent w none) k = envGet parent k) := by
  unfold child_env
  refine ⟨?_, ?_, ?_, ?_, ?_, ?_⟩
  · intro k hk
    rw [envGet_strip, if_pos hk]
  · rw [envGet_strip, if_neg (by decide)]
    rw [envGet_envSet_ne _ _ _ _ (by decide), envGet_envSet_ne _ _ _ _ (by decide),
      envGet_envSet_ne _ _ _ _ (by decide), envGet_envSet_ne _ _ _ _ (by decide),
      envGet_envSet_self]
  · rw [envGet_strip, if_neg (by decide)]
    rw [envGet_envSet_ne _ _ _ _ (by decide), envGet_envSet_ne _ _ _ _ (by decide),
      envGet_envSet_ne _ _ _ _ (by decide), envGet_envSet_self]
  · rw [envGet_strip, if_neg (by decide)]
    rw [envGet_envSet_ne _ _ _ _ (by decide), envGet_envSet_ne _ _ _ _ (by decide),
      envGet_envSet_self]
  · rw [envGet_strip, if_neg (by decide)]
    rw [envGet_envSet_self]
  · intro k hk h1 h2 h3 h4 h5
    rw [envGet_strip, if_neg (by simp [hk])]
    rw [envGet_envSet_ne _ _ _ _ (fun he => h5 he.symm),
      envGet_envSet_ne _ _ _ _ (fun he => h4 he.symm),
      envGet_envSet_ne _ _ _ _ (fun he => h3 he.symm),
      envGet_envSet_ne _ _ _ _ (fun he => h2 he.symm),
      envGet_envSet_ne _ _ _ _ (fun he => h1 he.symm)]

/-- C9 witness: the theorem at `parent0`, evaluated — the OAuth token is
gone, `USER` survives, and the injected values are exact. -/
theorem claim9_witness :
    envGet (child_env parent0 "/ws" none) "DATABRICKS_OAUTH_TOKEN" = none
      ∧ envGet (child_env parent0 "/ws" none) "HOME" = some "/home/a"
      ∧ envGet (child_env parent0 "/ws" none) "PWD" = some "/ws"
      ∧ envGet (child_env parent0 "/ws" none) "PATH"
        = some "/home/a/.local/bin:/bin"
      ∧ envGet (child_env parent0 "/ws" none) "USER" = some "alice" := by
  have h := claim9_env_filtering parent0 "/ws"
  refine ⟨h.1 "DATABRICKS_OAUTH_TOKEN" (by decide), ?_, h.2.2.1, ?_,
    h.2.2.2.2.2 "USER" (by decide) (by decide) (by decide) (by decide) (by decide)
      (by decide) |>.trans (by decide)⟩
  · exact h.2.1.trans (by decide)
  · exact h.2.2.2.2.1.trans (by decide)

end Workshop
